import Mathlib

/-!
Shallow embedding of the Task Tracker CLI core (`task_cli.py`, with constants
from `config.py`): the task store data model, its mutating operations
(`add_task`, `update_task`, `delete_task`, `mark_in_progress`, `mark_done`),
the query engine (`filter_tasks`, `sort_tasks`), the statistics aggregator
(`get_statistics`) and the load/save lifecycle (`_load_tasks`, `_save_tasks`).

Timestamps are opaque strings supplied by the caller (the Python code reads
them from the clock); "today" is a civil day number.  Machine floats in
`get_statistics` are modelled as rationals.
-/

namespace TaskCli

/-! ### Configuration constants (config.py `DEFAULT_CONFIG`) -/

def valid_statuses : List String := ["todo", "in-progress", "done"]

def valid_priorities : List String := ["low", "medium", "high"]

def max_description_length : Nat := 1000

def default_status : String := "todo"

/-! ### Python string primitives

`pyStrip` models `str.strip()` (whitespace trim at both ends), `pyLower`
models `str.lower()` (ASCII case folding, the only case the program uses),
and `lexLt` models Python's `<` on strings: lexicographic comparison of
code points, a strict prefix being smaller. -/

def stripList (cs : List Char) : List Char :=
  ((cs.dropWhile Char.isWhitespace).reverse.dropWhile Char.isWhitespace).reverse

def pyStrip (s : String) : String := ⟨stripList s.data⟩

def pyLower (s : String) : String := ⟨s.data.map Char.toLower⟩

def lexLt : List Char → List Char → Bool
  | _, [] => false
  | [], _ :: _ => true
  | a :: as, b :: bs => if a = b then lexLt as bs else decide (a.toNat < b.toNat)

/-- Python `a <= b` on strings, as not `b < a`. -/
def strLe (a b : String) : Bool := !(lexLt b.data a.data)

/-- Python `a > b` on strings. -/
def strGt (a b : String) : Bool := lexLt b.data a.data

/-! ### Calendar dates

`parseYMD` models `datetime.strptime(s, "%Y-%m-%d")`: the string must split
on `-` into three all-digit groups of at most 4/2/2 digits, naming a valid
calendar date (year 1–9999).  `formatYMD` models
`.strftime("%Y-%m-%d")` (zero-padded).  `toDayNumber` linearises a civil
date so that differences count days, as Python's `date` subtraction does. -/

def splitDash : List Char → List (List Char)
  | [] => [[]]
  | c :: rest =>
    let r := splitDash rest
    if c = '-' then [] :: r
    else
      match r with
      | h :: t => (c :: h) :: t
      | [] => [[c]]

def digitsToNat (cs : List Char) : Nat :=
  cs.foldl (fun acc c => acc * 10 + (c.toNat - 48)) 0

def allDigits (cs : List Char) : Bool := !cs.isEmpty && cs.all Char.isDigit

def isLeapYear (y : Nat) : Bool := (y % 4 = 0 && y % 100 ≠ 0) || y % 400 = 0

def daysInMonth (y m : Nat) : Nat :=
  if m = 2 then (if isLeapYear y then 29 else 28)
  else if m = 4 ∨ m = 6 ∨ m = 9 ∨ m = 11 then 30
  else 31

def parseYMD (s : String) : Option (Nat × Nat × Nat) :=
  match splitDash s.data with
  | [ys, ms, ds] =>
    if allDigits ys && ys.length ≤ 4 && allDigits ms && ms.length ≤ 2 &&
        allDigits ds && ds.length ≤ 2 then
      let y := digitsToNat ys
      let m := digitsToNat ms
      let d := digitsToNat ds
      if 1 ≤ y ∧ 1 ≤ m ∧ m ≤ 12 ∧ 1 ≤ d ∧ d ≤ daysInMonth y m then
        some (y, m, d)
      else none
    else none
  | _ => none

def padZero (width : Nat) (n : Nat) : String :=
  let s := toString n
  ⟨List.replicate (width - s.length) '0' ++ s.data⟩

def formatYMD : Nat × Nat × Nat → String
  | (y, m, d) => padZero 4 y ++ "-" ++ padZero 2 m ++ "-" ++ padZero 2 d

def daysBeforeMonth (y m : Nat) : Nat :=
  (List.range (m - 1)).foldl (fun acc i => acc + daysInMonth y (i + 1)) 0

def toDayNumber : Nat × Nat × Nat → Nat
  | (y, m, d) => 365 * (y - 1) + (y - 1) / 4 - (y - 1) / 100 + (y - 1) / 400 +
      daysBeforeMonth y m + (d - 1)

/-- `datetime.strptime(due_date, "%Y-%m-%d").strftime("%Y-%m-%d")` in
`add_task` / `update_task`: parse, then re-emit zero-padded. -/
def parseDueDate (s : String) : Option String :=
  (parseYMD s).map formatYMD

/-! ### Data model

A `Task` is one record of the `tasks` array; every field the program writes
is present.  `due_date` is `none` for JSON `null`; note the program can also
store `some ""` (see `update_task`).  A `Store` is the in-memory
`self.tasks` dict: the task list, the `next_id` counter and the metadata
block. -/

structure Task where
  id : Nat
  description : String
  status : String
  category : String
  priority : String
  due_date : Option String
  createdAt : String
  updatedAt : String
deriving DecidableEq, Repr

structure Metadata where
  version : String
  created : String
  last_modified : String
deriving DecidableEq, Repr

structure Store where
  tasks : List Task
  next_id : Nat
  metadata : Metadata
deriving DecidableEq, Repr

/-- Result of one mutating operation.  `ok s` means the store became `s` and
was saved; `err m` is a validation / not-found rejection printed as an error
(no mutation, no save); `warn m` is the "already in that status" notice
(no mutation, no save), a distinct channel from `err`. -/
inductive OpResult where
  | ok (s : Store)
  | err (msg : String)
  | warn (msg : String)
deriving DecidableEq, Repr

/-- `_find_task_by_id`: linear scan returning the first task with the id. -/
def find_task_by_id (s : Store) (task_id : Nat) : Option Task :=
  s.tasks.find? (fun t => t.id == task_id)

/-- Python mutates the dict object returned by `_find_task_by_id` in place:
only the first occurrence in the list changes. -/
def updateFirst (p : Task → Bool) (f : Task → Task) : List Task → List Task
  | [] => []
  | t :: ts => if p t then f t :: ts else t :: updateFirst p f ts

/-- `_save_tasks`: restamps `metadata.last_modified` before writing. -/
def stampSave (s : Store) (now : String) : Store :=
  { s with metadata := { s.metadata with last_modified := now } }

/-- Python truthiness of an `Optional[str]`: `None` and `""` are falsy. -/
def optTruthy : Option String → Bool
  | none => false
  | some s => s ≠ ""

/-- `add_task(description, category="general", priority="medium",
due_date=None)`.  Validation failures print an error and return without
touching the store; on success the new task gets `id = next_id`, both
timestamps equal to the single `current_time` read, `next_id` is
incremented and the store is saved. -/
def add_task (s : Store) (now : String) (description : String)
    (category : String) (priority : String) (due_date : Option String) :
    OpResult :=
  if pyStrip description = "" then
    .err "Error: Task description cannot be empty."
  else if (pyStrip description).length > max_description_length then
    .err ("Error: Task description too long. Maximum " ++
      toString max_description_length ++ " characters allowed.")
  else if !(valid_priorities.contains priority) then
    .err ("Error: Invalid priority '" ++ priority ++ "'. Valid priorities are: " ++
      String.intercalate ", " valid_priorities)
  else
    match due_date with
    | some d =>
      if d ≠ "" then
        match parseDueDate d with
        | none => .err "Error: Invalid due date format. Use YYYY-MM-DD format."
        | some parsed => .ok (addCore s now description category priority (some parsed))
      else .ok (addCore s now description category priority none)
    | none => .ok (addCore s now description category priority none)
where
  /-- The body after validation: build the task, append, bump `next_id`,
  save. -/
  addCore (s : Store) (now description category priority : String)
      (parsed_due_date : Option String) : Store :=
    stampSave
      { tasks := s.tasks ++ [{
          id := s.next_id,
          description := pyStrip description,
          status := default_status,
          category := pyLower category,
          priority := priority,
          due_date := parsed_due_date,
          createdAt := now,
          updatedAt := now }],
        next_id := s.next_id + 1,
        metadata := s.metadata } now

/-- `update_task(task_id, new_description, new_category=None,
new_priority=None, new_due_date=None)`.  Note the two distinct guards on
`new_due_date`: truthiness (`if new_due_date:`) for validation, but
`is not None` for assignment — so `""` skips validation yet is assigned. -/
def update_task (s : Store) (now : String) (task_id : Nat)
    (new_description : String) (new_category new_priority new_due_date : Option String) :
    OpResult :=
  if pyStrip new_description = "" then
    .err "Task description cannot be empty."
  else if (pyStrip new_description).length > max_description_length then
    .err ("Task description too long. Maximum " ++
      toString max_description_length ++ " characters allowed.")
  else
    match find_task_by_id s task_id with
    | none => .err ("Task with ID " ++ toString task_id ++ " not found.")
    | some _ =>
      if optTruthy new_priority &&
          !(valid_priorities.contains (new_priority.getD "")) then
        .err ("Invalid priority '" ++ new_priority.getD "" ++
          "'. Valid priorities are: " ++ String.intercalate ", " valid_priorities)
      else
        match (match new_due_date with
               | some d =>
                 if d ≠ "" then
                   match parseDueDate d with
                   | none => none
                   | some parsed => some (some parsed)
                 else some (some d)
               | none => some none) with
        | none => .err "Invalid due date format. Use YYYY-MM-DD format."
        | some nd =>
          .ok (stampSave
            { s with tasks := (updateFirst (fun t => t.id == task_id)
                (fun t =>
                  { t with
                    description := pyStrip new_description,
                    category := match new_category with
                      | some c => pyLower c
                      | none => t.category,
                    priority := match new_priority with
                      | some p => p
                      | none => t.priority,
                    due_date := match nd with
                      | some d => some d
                      | none => t.due_date,
                    updatedAt := now }) s.tasks) } now)

/-- `delete_task(task_id)`: not-found is reported; otherwise the task list
is rebuilt without any task of that id and the store saved. -/
def delete_task (s : Store) (now : String) (task_id : Nat) : OpResult :=
  match find_task_by_id s task_id with
  | none => .err ("Task with ID " ++ toString task_id ++ " not found.")
  | some _ =>
    .ok (stampSave { s with tasks := s.tasks.filter (fun t => t.id ≠ task_id) } now)

/-- `mark_in_progress(task_id)`: not-found error; already-in-progress
warning with no write; otherwise restamp `updatedAt`, set the status on the
found task and save. -/
def mark_in_progress (s : Store) (now : String) (task_id : Nat) : OpResult :=
  match find_task_by_id s task_id with
  | none => .err ("Task with ID " ++ toString task_id ++ " not found.")
  | some t =>
    if t.status = "in-progress" then
      .warn ("Task " ++ toString task_id ++ " is already in progress.")
    else
      .ok (stampSave
        { s with tasks := (updateFirst (fun u => u.id == task_id)
            (fun u => { u with status := "in-progress", updatedAt := now }) s.tasks) } now)

/-- `mark_done(task_id)`: same shape as `mark_in_progress` with target
status `done`. -/
def mark_done (s : Store) (now : String) (task_id : Nat) : OpResult :=
  match find_task_by_id s task_id with
  | none => .err ("Task with ID " ++ toString task_id ++ " not found.")
  | some t =>
    if t.status = "done" then
      .warn ("Task " ++ toString task_id ++ " is already done.")
    else
      .ok (stampSave
        { s with tasks := (updateFirst (fun u => u.id == task_id)
            (fun u => { u with status := "done", updatedAt := now }) s.tasks) } now)

/-! ### Query engine -/

/-- Python's `q in s` on strings: contiguous substring. -/
def pyIn (q s : String) : Bool := decide (List.IsInfix q.data s.data)

/-- `search_tasks(query)`: case-insensitive substring match on the
description, order preserved. -/
def search_tasks (s : Store) (query : String) : List Task :=
  s.tasks.filter (fun t => pyIn (pyLower query) (pyLower t.description))

/-- Key of the `"priority"` sort entry:
`config.get("valid_priorities").index(t["priority"])`. -/
def priorityIndex (p : String) : Nat :=
  valid_priorities.findIdx (fun q => q == p)

/-- Key of the `"due_date"` sort entry:
`t.get("due_date") or "9999-12-31"` — note `""` is falsy, so an
empty-string due date also maps to the sentinel. -/
def dueKey (t : Task) : String :=
  match t.due_date with
  | none => "9999-12-31"
  | some d => if d = "" then "9999-12-31" else d

/-- The recognized sort keys (`sort_functions` dict). -/
def validSortKeys : List String :=
  ["id", "description", "status", "priority", "category", "created",
   "updated", "due_date"]

/-- The ≤ comparison Python's `sorted` performs on the keys of one sort
entry. -/
def sort_key_le (k : String) (a b : Task) : Bool :=
  if k = "id" then decide (a.id ≤ b.id)
  else if k = "description" then
    strLe (pyLower a.description) (pyLower b.description)
  else if k = "status" then strLe a.status b.status
  else if k = "priority" then decide (priorityIndex a.priority ≤ priorityIndex b.priority)
  else if k = "category" then strLe a.category b.category
  else if k = "created" then strLe a.createdAt b.createdAt
  else if k = "updated" then strLe a.updatedAt b.updatedAt
  else if k = "due_date" then strLe (dueKey a) (dueKey b)
  else decide (a.id ≤ b.id)

/-- `sort_tasks(tasks, sort_by="id", reverse=False)`: an unrecognized key
warns and falls back to `"id"`; `sorted(..., reverse=True)` is CPython's
reverse–stable-ascending-sort–reverse. -/
def sort_tasks (tasks : List Task) (sort_by : String) (reverse : Bool) :
    List Task :=
  let k := if validSortKeys.contains sort_by then sort_by else "id"
  if reverse then (List.mergeSort tasks.reverse (sort_key_le k)).reverse
  else List.mergeSort tasks (sort_key_le k)

/-- The due-soon list comprehension in `filter_tasks`:
`t.get("due_date") and strptime(t["due_date"]).date() <= today + 7 days`.
An unparsable stored due date raises `ValueError` out of the comprehension,
modelled as `Except.error`. -/
def dueSoonFilter (today : Nat) : List Task → Except String (List Task)
  | [] => .ok []
  | t :: ts =>
    match t.due_date with
    | none => dueSoonFilter today ts
    | some d =>
      if d = "" then dueSoonFilter today ts
      else
        match parseYMD d with
        | none => .error "ValueError: time data does not match format"
        | some ymd =>
          match dueSoonFilter today ts with
          | .error e => .error e
          | .ok rest =>
            if toDayNumber ymd ≤ today + 7 then .ok (t :: rest) else .ok rest

/-- `filter_tasks(tasks, status=None, category=None, priority=None,
due_soon=False)`: each supplied (truthy) predicate narrows the list in
turn.  The category comparison is `t.get("category", "general") ==
category.lower()`: only the filter argument is case-folded. -/
def filter_tasks (tasks : List Task) (status category priority : Option String)
    (due_soon : Bool) (today : Nat) : Except String (List Task) :=
  let t1 := match status with
    | some x => if x ≠ "" then tasks.filter (fun t => t.status == x) else tasks
    | none => tasks
  let t2 := match category with
    | some c => if c ≠ "" then t1.filter (fun t => t.category == pyLower c) else t1
    | none => t1
  let t3 := match priority with
    | some p => if p ≠ "" then t2.filter (fun t => t.priority == p) else t2
    | none => t2
  if due_soon then dueSoonFilter today t3 else .ok t3

/-! ### Statistics aggregator -/

/-- `dict.get` on an association list. -/
def alistGet (l : List (String × Nat)) (k : String) (dflt : Nat) : Nat :=
  match l.find? (fun p => p.1 == k) with
  | some p => p.2
  | none => dflt

/-- One step of `categories[category] = categories.get(category, 0) + 1`:
Python dicts keep first-insertion key order. -/
def bumpCategory (acc : List (String × Nat)) (c : String) : List (String × Nat) :=
  if acc.any (fun p => p.1 == c) then
    acc.map (fun p => if p.1 == c then (p.1, p.2 + 1) else p)
  else acc ++ [(c, 1)]

/-- The record returned by `get_statistics` in the non-empty case. -/
structure Statistics where
  total : Nat
  status_counts : List (String × Nat)
  priority_counts : List (String × Nat)
  categories : List (String × Nat)
  completion_rate : ℚ
  overdue : Nat
  due_today : Nat
  due_this_week : Nat
  created_this_week : Nat
  completed_this_week : Nat
deriving DecidableEq, Repr

/-- `get_statistics` returns `{"total": 0, "message": "No tasks found"}`
for an empty collection, a full statistics record otherwise. -/
inductive StatsResult where
  | noTasks
  | stats (st : Statistics)
deriving DecidableEq, Repr

/-- The due-date bucket loop: tasks with a truthy due date are parsed
(`ValueError` is swallowed by the `except: pass`) and counted by
`days_until` into overdue (< 0), due today (= 0) or due this week
(1–7). -/
def dueBuckets (today : Nat) (tasks : List Task) : Nat × Nat × Nat :=
  tasks.foldl (fun acc t =>
    match t.due_date with
    | none => acc
    | some d =>
      if d = "" then acc
      else
        match parseYMD d with
        | none => acc
        | some ymd =>
          let days_until : Int := (toDayNumber ymd : Int) - (today : Int)
          if days_until < 0 then (acc.1 + 1, acc.2.1, acc.2.2)
          else if days_until = 0 then (acc.1, acc.2.1 + 1, acc.2.2)
          else if days_until ≤ 7 then (acc.1, acc.2.1, acc.2.2 + 1)
          else acc) (0, 0, 0)

/-- `get_statistics()` over the task list; `today` is the current civil
day number and `week_ago` the timestamp string
`(now - 7 days).strftime(date_format)`. -/
def get_statistics (tasks : List Task) (today : Nat) (week_ago : String) :
    StatsResult :=
  if tasks.isEmpty then .noTasks
  else
    let status_counts := valid_statuses.map
      (fun st => (st, tasks.countP (fun t => t.status == st)))
    let priority_counts := valid_priorities.map
      (fun p => (p, tasks.countP (fun t => t.priority == p)))
    let categories := tasks.foldl (fun acc t => bumpCategory acc t.category) []
    let buckets := dueBuckets today tasks
    let completed := alistGet status_counts "done" 0
    .stats {
      total := tasks.length,
      status_counts := status_counts,
      priority_counts := priority_counts,
      categories := categories,
      completion_rate := (completed : ℚ) / (tasks.length : ℚ) * 100,
      overdue := buckets.1,
      due_today := buckets.2.1,
      due_this_week := buckets.2.2,
      created_this_week := tasks.countP (fun t => strGt t.createdAt week_ago),
      completed_this_week := tasks.countP
        (fun t => t.status == "done" && strGt t.updatedAt week_ago) }

/-! ### Load / save lifecycle

The persisted JSON is modelled structurally: `RawTask` mirrors a task
object in the file where the three migratable fields may be missing
(`none`), and a present `due_date` may itself be JSON `null`.  `LoadInput`
abstracts the file system: the file may be absent, unreadable/unparsable
(`json.JSONDecodeError` / `IOError`), or parsed. -/

structure RawTask where
  id : Nat
  description : String
  status : String
  category : Option String
  priority : Option String
  due_date : Option (Option String)
  createdAt : String
  updatedAt : String
deriving DecidableEq, Repr

structure RawStore where
  tasks : Option (List RawTask)
  next_id : Option Nat
  metadata : Option Metadata
deriving DecidableEq, Repr

inductive LoadInput where
  | absent
  | unparsable
  | parsed (raw : RawStore)
deriving DecidableEq, Repr

/-- The migrate-on-load backfill of one task record. -/
def migrateTask (rt : RawTask) : Task :=
  { id := rt.id,
    description := rt.description,
    status := rt.status,
    category := rt.category.getD "general",
    priority := rt.priority.getD "medium",
    due_date := (rt.due_date.getD none),
    createdAt := rt.createdAt,
    updatedAt := rt.updatedAt }

/-- `_load_tasks()`: absent file or unparsable content yields the empty
store with `next_id = 1` and fresh metadata; unparsable content
additionally prints the load warning (the `Bool` flag).  A parsed file has
missing top-level fields backfilled and its tasks migrated. -/
def load_tasks (input : LoadInput) (now : String) : Store × Bool :=
  let empty : Store :=
    { tasks := [], next_id := 1,
      metadata := { version := "2.0", created := now, last_modified := now } }
  match input with
  | .absent => (empty, false)
  | .unparsable => (empty, true)
  | .parsed raw =>
    ({ tasks := (raw.tasks.getD []).map migrateTask,
       next_id := raw.next_id.getD 1,
       metadata := raw.metadata.getD
         { version := "2.0", created := now, last_modified := now } },
     false)

/-- One task object as `_save_tasks()` writes it: every field present. -/
def saveTaskRaw (t : Task) : RawTask :=
  { id := t.id,
    description := t.description,
    status := t.status,
    category := some t.category,
    priority := some t.priority,
    due_date := some t.due_date,
    createdAt := t.createdAt,
    updatedAt := t.updatedAt }

/-- `_save_tasks()` as the document it writes. -/
def save_store (s : Store) : RawStore :=
  { tasks := some (s.tasks.map saveTaskRaw),
    next_id := some s.next_id,
    metadata := some s.metadata }

/-! ### Sequences of `add` calls (for the id-assignment invariant) -/

structure AddCall where
  now : String
  description : String
  category : String
  priority : String
  due_date : Option String
deriving DecidableEq, Repr

/-- Decidable success condition of `add_task` (its validation gauntlet). -/
def addOk (c : AddCall) : Bool :=
  pyStrip c.description ≠ "" &&
  decide ((pyStrip c.description).length ≤ max_description_length) &&
  valid_priorities.contains c.priority &&
  (match c.due_date with
   | none => true
   | some d => d = "" || (parseDueDate d).isSome)

/-- Run a sequence of `add_task` calls, collecting the ids issued by the
successful ones. -/
def runAdds (s : Store) : List AddCall → Store × List Nat
  | [] => (s, [])
  | c :: cs =>
    match add_task s c.now c.description c.category c.priority c.due_date with
    | .ok s' =>
      let r := runAdds s' cs
      (r.1, s.next_id :: r.2)
    | _ => runAdds s cs

/-! ### Order facts about the string comparison -/

theorem char_toNat_inj {a b : Char} (h : a.toNat = b.toNat) : a = b := by
  have := congrArg Char.ofNat h
  rwa [Char.ofNat_toNat, Char.ofNat_toNat] at this

theorem lexLt_irrefl : ∀ l : List Char, lexLt l l = false
  | [] => rfl
  | c :: cs => by simp [lexLt, lexLt_irrefl cs]

theorem lexLt_trans : ∀ {a b c : List Char},
    lexLt a b = true → lexLt b c = true → lexLt a c = true
  | _, _, [], _, hbc => by simp [lexLt] at hbc
  | [], _ :: _, _ :: _, _, _ => rfl
  | _ :: _, [], _, hab, _ => by simp [lexLt] at hab
  | a :: as, b :: bs, c :: cs, hab, hbc => by
    simp only [lexLt] at hab hbc ⊢
    by_cases h1 : a = b <;> by_cases h2 : b = c
    · subst h1; subst h2
      simp_all only [if_pos rfl]
      exact lexLt_trans hab hbc
    · subst h1; simp_all [if_neg h2]
    · subst h2; simp_all [if_neg h1]
    · simp only [if_neg h1, decide_eq_true_eq] at hab
      simp only [if_neg h2, decide_eq_true_eq] at hbc
      have hac : a.toNat < c.toNat := Nat.lt_trans hab hbc
      have hne : a ≠ c := fun h => by subst h; exact Nat.lt_irrefl _ hac
      simp [if_neg hne, hac]

theorem lexLt_trichotomy : ∀ a b : List Char,
    a = b ∨ lexLt a b = true ∨ lexLt b a = true
  | [], [] => .inl rfl
  | [], _ :: _ => .inr (.inl rfl)
  | _ :: _, [] => .inr (.inr rfl)
  | a :: as, b :: bs => by
    by_cases h : a = b
    · subst h
      rcases lexLt_trichotomy as bs with h | h | h
      · exact .inl (by rw [h])
      · exact .inr (.inl (by simp [lexLt, h]))
      · exact .inr (.inr (by simp [lexLt, h]))
    · rcases Nat.lt_trichotomy a.toNat b.toNat with hn | hn | hn
      · exact .inr (.inl (by simp [lexLt, if_neg h, hn]))
      · exact absurd (char_toNat_inj hn) h
      · exact .inr (.inr (by simp [lexLt, if_neg (Ne.symm h), hn]))

theorem lexLt_asymm {a b : List Char} (h : lexLt a b = true) :
    lexLt b a = false := by
  by_contra hba
  have hba' : lexLt b a = true := by
    cases hx : lexLt b a with
    | false => exact absurd hx hba
    | true => rfl
  have := lexLt_trans h hba'
  rw [lexLt_irrefl] at this
  exact Bool.false_ne_true this

theorem strLe_total (a b : String) : strLe a b = true ∨ strLe b a = true := by
  by_cases h : lexLt b.data a.data = true
  · exact .inr (by simp [strLe, lexLt_asymm h])
  · exact .inl (by simp [strLe, Bool.eq_false_iff.mpr (fun hx => h hx)])

theorem strLe_trans {a b c : String} (hab : strLe a b = true)
    (hbc : strLe b c = true) : strLe a c = true := by
  simp only [strLe, Bool.not_eq_true', Bool.not_eq_true] at hab hbc ⊢
  by_contra hca
  have hca' : lexLt c.data a.data = true := by
    cases hx : lexLt c.data a.data with
    | false => exact absurd hx hca
    | true => rfl
  rcases lexLt_trichotomy a.data b.data with h | h | h
  · rw [h] at hca'; rw [hca'] at hbc; simp at hbc
  · have := lexLt_trans hca' h
    rw [this] at hbc; simp at hbc
  · rw [h] at hab; simp at hab

theorem strLe_of_not_gt {a b : String} (h : lexLt b.data a.data = false) :
    strLe a b = true := by simp [strLe, h]

theorem not_lexLt_of_strLe {a b : String} (h : strLe a b = true) :
    lexLt b.data a.data = false := by
  simpa [strLe, Bool.not_eq_true'] using h

/-! ### First-occurrence lemmas (Python mutates the object found by the
linear scan `_find_task_by_id`) -/

theorem find?_first {p : Task → Bool} {t : Task} :
    ∀ {l1 : List Task} (l2 : List Task), (∀ u ∈ l1, p u = false) → p t = true →
      (l1 ++ t :: l2).find? p = some t
  | [], l2, _, ht => by simp [List.find?, ht]
  | u :: l1, l2, h1, ht => by
    have hu : p u = false := h1 u (List.mem_cons_self u l1)
    simp only [List.cons_append, List.find?, hu]
    exact find?_first l2 (fun v hv => h1 v (List.mem_cons_of_mem u hv)) ht

theorem updateFirst_first {p : Task → Bool} {f : Task → Task} {t : Task} :
    ∀ {l1 : List Task} (l2 : List Task), (∀ u ∈ l1, p u = false) → p t = true →
      updateFirst p f (l1 ++ t :: l2) = l1 ++ f t :: l2
  | [], l2, _, ht => by simp [updateFirst, ht]
  | u :: l1, l2, h1, ht => by
    have hu : p u = false := h1 u (List.mem_cons_self u l1)
    show (if p u = true then _ else u :: updateFirst p f (l1 ++ t :: l2)) = _
    rw [hu, if_neg (by simp),
      updateFirst_first l2 (fun v hv => h1 v (List.mem_cons_of_mem u hv)) ht]
    rfl

theorem find?_eq_none_of_all {p : Task → Bool} {l : List Task}
    (h : ∀ u ∈ l, p u = false) : l.find? p = none :=
  List.find?_eq_none.mpr (fun x hx => by simp [h x hx])

/-! ### Example fixtures used by witnesses and counterexamples -/

def exMeta : Metadata := { version := "2.0", created := "c0", last_modified := "c0" }

def exEmptyStore : Store := { tasks := [], next_id := 1, metadata := exMeta }

def exTaskWork : Task :=
  { id := 1, description := "Report", status := "todo", category := "Work",
    priority := "high", due_date := some "2024-01-01", createdAt := "t0",
    updatedAt := "t0" }

def exStore1 : Store := { tasks := [exTaskWork], next_id := 2, metadata := exMeta }

def exTaskLower : Task := { exTaskWork with category := "work" }

def c4Expected : Store :=
  { tasks := [{ id := 1, description := "Test", status := "todo",
                category := "general", priority := "medium", due_date := none,
                createdAt := "t1", updatedAt := "t1" }],
    next_id := 2,
    metadata := { version := "2.0", created := "c0", last_modified := "t1" } }

def c10Expected : Store :=
  { tasks := [{ exTaskWork with description := "New desc", due_date := some "", updatedAt := "t2" }],
    next_id := 2,
    metadata := { version := "2.0", created := "c0", last_modified := "t2" } }

/-! ### Claims -/

/-- C5: for every data-file content that is not parsable JSON (or whose read
raises an I/O error, both collapsed into `LoadInput.unparsable`), `_load_tasks`
lets no exception escape: it emits the warning (the `true` flag) and returns an
empty store with zero tasks, `next_id = 1` and a freshly stamped metadata
block — no partial recovery. -/
theorem c5_load_corruption_recovers (now : String) :
    load_tasks .unparsable now =
      ({ tasks := [], next_id := 1,
         metadata := { version := "2.0", created := now, last_modified := now } },
       true) := rfl

/-- C4 counterexample: the claim says a due date not parseable as a
YYYY-MM-DD calendar date is rejected and the call is a complete no-op.  The
empty string is not parseable (`parseDueDate "" = none`), yet
`add_task(..., due_date="")` is *not* rejected: Python's `if due_date:` is
falsy on `""`, so the task is added (with no due date) and saved. -/
theorem c4_counterexample :
    parseDueDate "" = none ∧
    add_task exEmptyStore "t1" "Test" "general" "medium" (some "") =
      .ok c4Expected :=
  ⟨rfl, rfl⟩

/-- C4 (amended): an add call with an empty or whitespace-only description,
a trimmed description longer than 1000 characters, a priority outside
{low, medium, high}, or a *non-empty* due date string not parseable as a
YYYY-MM-DD calendar date is rejected with a message and is a complete no-op
(an `err` result carries no store and nothing is saved); an *empty* due-date
string is instead treated exactly as if no due date had been supplied. -/
theorem c4_amended_add_validation (s : Store) (now d c p : String)
    (dd : Option String)
    (h : pyStrip d = "" ∨ (pyStrip d).length > max_description_length ∨
         valid_priorities.contains p = false ∨
         (∃ ds, dd = some ds ∧ ds ≠ "" ∧ parseDueDate ds = none)) :
    (∃ msg, add_task s now d c p dd = .err msg) ∧
    add_task s now d c p (some "") = add_task s now d c p none := by
  constructor
  · unfold add_task
    by_cases h1 : pyStrip d = ""
    · exact ⟨_, by simp [h1]; rfl⟩
    · by_cases h2 : (pyStrip d).length > max_description_length
      · exact ⟨_, by simp [h1, h2]; rfl⟩
      · cases h3 : valid_priorities.contains p with
        | false => exact ⟨_, by simp [h1, h2, h3]; rfl⟩
        | true =>
          rcases h with h | h | h | ⟨ds, hds, hne, hparse⟩
          · exact absurd h h1
          · exact absurd h h2
          · rw [h3] at h; exact absurd h (by simp)
          · subst hds
            exact ⟨_, by simp [h1, h2, h3, hne, hparse]; rfl⟩
  · rfl

/-- C4 amended claim witness: `add("   ")` with an empty due-date string. -/
theorem c4_witness :
    (pyStrip "   " = "" ∨ (pyStrip "   ").length > max_description_length ∨
      valid_priorities.contains "medium" = false ∨
      (∃ ds, (some "" : Option String) = some ds ∧ ds ≠ "" ∧ parseDueDate ds = none)) ∧
    (∃ msg, add_task exEmptyStore "t9" "   " "general" "medium" (some "") = .err msg) ∧
    add_task exEmptyStore "t9" "   " "general" "medium" (some "") =
      add_task exEmptyStore "t9" "   " "general" "medium" none := by
  refine ⟨Or.inl (by decide), ?_⟩
  exact c4_amended_add_validation exEmptyStore "t9" "   " "general" "medium"
    (some "") (Or.inl (by decide))

/-- C8 counterexample: the claim says the category filter is
case-insensitive equality against the stored category, so a task with stored
category `"Work"` filtered with `"work"` (or `"WORK"`) should match.  It does
not: `filter_tasks` compares the stored value verbatim against the
lower-cased filter argument. -/
theorem c8_counterexample :
    exTaskWork.category = "Work" ∧
    filter_tasks [exTaskWork] none (some "work") none false 0 = .ok [] ∧
    filter_tasks [exTaskWork] none (some "WORK") none false 0 = .ok [] :=
  ⟨rfl, rfl, rfl⟩

/-- C8 (amended): for every non-empty category filter string `c`, the
category predicate of `filter_tasks` matches a task iff its *stored*
category is exactly equal to the lower-casing of `c`: case-insensitive in
the filter argument, case-sensitive in the stored value.  (An empty filter
string is falsy and disables the predicate.) -/
theorem c8_amended_category_filter (tasks : List Task) (c : String)
    (today : Nat) (h : c ≠ "") :
    filter_tasks tasks none (some c) none false today =
      .ok (tasks.filter (fun t => t.category == pyLower c)) := by
  simp [filter_tasks, h]

/-- C8 amended claim witness: stored `"work"` is matched by filter
`"WORK"`. -/
theorem c8_witness :
    ("WORK" ≠ "") ∧
    filter_tasks [exTaskLower] none (some "WORK") none false 0 =
      .ok ([exTaskLower].filter (fun t => t.category == pyLower "WORK")) ∧
    [exTaskLower].filter (fun t => t.category == pyLower "WORK") = [exTaskLower] := by
  refine ⟨by decide, ?_, by decide⟩
  exact c8_amended_category_filter [exTaskLower] "WORK" 0 (by decide)

/-- C10 counterexample: the claim says `update(X, desc, due_date="")` leaves
the stored `due_date` unchanged.  It does not: the empty string skips the
truthiness-guarded validation but passes the `is not None` assignment guard,
so the field changes from `"2024-01-01"` to `""`. -/
theorem c10_counterexample :
    exStore1.tasks = [exTaskWork] ∧
    exTaskWork.due_date = some "2024-01-01" ∧
    update_task exStore1 "t2" 1 "New desc" none none (some "") =
      .ok c10Expected ∧
    c10Expected.tasks.map Task.due_date = [some ""] :=
  ⟨rfl, rfl, rfl, rfl⟩

/-- C10 (amended): for every store whose first task with id `X` is `t`,
calling update with an empty-string due date *assigns* `due_date := ""` on
that task (the empty string bypasses date validation because it is falsy,
but is assigned because it is not `None`); downstream code treats the empty
string exactly like an absent due date (sort sentinel, due-soon filter and
statistics buckets all fall through), so update *can* effectively clear a
due date, storing `""` rather than `null`. -/
theorem c10_amended_update_empty_due (s : Store) (now d : String) (X : Nat)
    (l1 l2 : List Task) (t : Task)
    (hsplit : s.tasks = l1 ++ t :: l2) (hfirst : ∀ u ∈ l1, u.id ≠ X)
    (hid : t.id = X) (hd1 : pyStrip d ≠ "")
    (hd2 : (pyStrip d).length ≤ max_description_length) :
    update_task s now X d none none (some "") =
      .ok (stampSave { s with tasks := l1 ++ ({ t with description := pyStrip d, due_date := some "", updatedAt := now }) :: l2 } now) ∧
    dueKey { t with due_date := some "" } = "9999-12-31" ∧
    (∀ today u, u.due_date = some "" → dueSoonFilter today [u] = .ok []) ∧
    (∀ today u l, u.due_date = some "" →
      dueBuckets today (u :: l) = dueBuckets today l) := by
  refine ⟨?_, rfl, ?_, ?_⟩
  · unfold update_task
    rw [if_neg hd1, if_neg (by omega)]
    unfold find_task_by_id
    rw [hsplit, find?_first l2 (fun u hu => by simp [hfirst u hu]) (by simp [hid])]
    simp only [optTruthy, Bool.false_and]
    rw [if_neg (by simp : ¬(false = true))]
    rw [if_neg (by simp : ¬("" ≠ ""))]
    dsimp only
    rw [updateFirst_first l2 (fun u hu => by simp [hfirst u hu]) (by simp [hid])]
  · intro today u hu
    simp [dueSoonFilter, hu]
  · intro today u l hu
    simp [dueBuckets, hu]

/-- C10 amended claim witness. -/
theorem c10_witness :
    update_task exStore1 "t2" 1 "New desc" none none (some "") =
      .ok (stampSave { exStore1 with tasks := [] ++ ({ exTaskWork with description := pyStrip "New desc", due_date := some "", updatedAt := "t2" }) :: [] } "t2") :=
  (c10_amended_update_empty_due exStore1 "t2" "New desc" 1 [] [] exTaskWork
    rfl (by decide) rfl (by decide) (by decide)).1

/-- Saving writes every field, so the migrate-on-load backfill is the
identity on a saved task. -/
theorem migrate_save (t : Task) : migrateTask (saveTaskRaw t) = t := rfl

/-- Save-then-load returns the store unchanged (the spec round-trip). -/
theorem load_save_roundtrip (s : Store) (now2 : String) :
    (load_tasks (.parsed (save_store s)) now2).1 = s := by
  have h1 : (s.tasks.map saveTaskRaw).map migrateTask = s.tasks := by
    rw [List.map_map]
    have h : migrateTask ∘ saveTaskRaw = id := rfl
    rw [h, List.map_id]
  simp [load_tasks, save_store, h1]

def exTaskDone1 : Task :=
  { id := 1, description := "Done one", status := "done", category := "general",
    priority := "medium", due_date := none, createdAt := "t0", updatedAt := "t0" }

def exTaskTodo2 : Task :=
  { id := 2, description := "Todo two", status := "todo", category := "general",
    priority := "low", due_date := none, createdAt := "t0", updatedAt := "t0" }

def c2Store : Store :=
  { tasks := [exTaskDone1, exTaskTodo2], next_id := 3, metadata := exMeta }

/-- C2: for every store and task id, `mark_done` / `mark_in_progress`
report "not found" and change nothing when the id is absent; when the first
task with that id is already in the target status they emit the
"already in that status" notice on the warning channel and perform no write
(a `warn` result carries no store: no restamp, no save), which is a
distinct report from the not-found error; otherwise they set the status on
that task, restamp its `updatedAt`, and save. -/
theorem c2_mark_status_transitions (s : Store) (now : String) (tid : Nat) :
    ((∀ u ∈ s.tasks, u.id ≠ tid) →
      mark_done s now tid = .err ("Task with ID " ++ toString tid ++ " not found.") ∧
      mark_in_progress s now tid = .err ("Task with ID " ++ toString tid ++ " not found.")) ∧
    (∀ l1 t l2, s.tasks = l1 ++ t :: l2 → (∀ u ∈ l1, u.id ≠ tid) → t.id = tid →
      (t.status = "done" →
        mark_done s now tid = .warn ("Task " ++ toString tid ++ " is already done.")) ∧
      (t.status ≠ "done" →
        mark_done s now tid = .ok (stampSave { s with tasks := l1 ++ ({ t with status := "done", updatedAt := now }) :: l2 } now)) ∧
      (t.status = "in-progress" →
        mark_in_progress s now tid = .warn ("Task " ++ toString tid ++ " is already in progress.")) ∧
      (t.status ≠ "in-progress" →
        mark_in_progress s now tid = .ok (stampSave { s with tasks := l1 ++ ({ t with status := "in-progress", updatedAt := now }) :: l2 } now))) ∧
    (∀ m1 m2, OpResult.warn m1 ≠ OpResult.err m2) := by
  refine ⟨?_, ?_, fun m1 m2 h => by cases h⟩
  · intro h
    have hn := @find?_eq_none_of_all (fun u => u.id == tid) s.tasks
      (fun u hu => by simp [h u hu])
    constructor
    · unfold mark_done find_task_by_id
      rw [hn]
    · unfold mark_in_progress find_task_by_id
      rw [hn]
  · intro l1 t l2 hs hfirst hid
    have hf := @find?_first (fun u => u.id == tid) t l1 l2
      (fun u hu => by simp [hfirst u hu]) (by simp [hid])
    refine ⟨?_, ?_, ?_, ?_⟩
    · intro hst
      unfold mark_done find_task_by_id
      rw [hs, hf]
      dsimp only
      rw [if_pos hst]
    · intro hst
      unfold mark_done find_task_by_id
      rw [hs, hf]
      dsimp only
      rw [if_neg hst,
        updateFirst_first l2 (fun u hu => by simp [hfirst u hu]) (by simp [hid])]
    · intro hst
      unfold mark_in_progress find_task_by_id
      rw [hs, hf]
      dsimp only
      rw [if_pos hst]
    · intro hst
      unfold mark_in_progress find_task_by_id
      rw [hs, hf]
      dsimp only
      rw [if_neg hst,
        updateFirst_first l2 (fun u hu => by simp [hfirst u hu]) (by simp [hid])]

/-- C2 witness: a concrete store exercising not-found, already-done and the
successful transition. -/
theorem c2_witness :
    mark_done c2Store "n1" 5 = .err ("Task with ID " ++ toString 5 ++ " not found.") ∧
    mark_done c2Store "n1" 1 = .warn ("Task " ++ toString 1 ++ " is already done.") ∧
    mark_done c2Store "n1" 2 = .ok (stampSave { c2Store with tasks := [exTaskDone1] ++ ({ exTaskTodo2 with status := "done", updatedAt := "n1" }) :: [] } "n1") := by
  refine ⟨((c2_mark_status_transitions c2Store "n1" 5).1 (by decide)).1, ?_, ?_⟩
  · exact ((c2_mark_status_transitions c2Store "n1" 1).2.1 [] exTaskDone1
      [exTaskTodo2] rfl (by decide) rfl).1 rfl
  · exact (((c2_mark_status_transitions c2Store "n1" 2).2.1 [exTaskDone1]
      exTaskTodo2 [] rfl (by decide) rfl).2.1 (by decide))

/-- C3: for every store containing a task `tX` with id `X` (ids unique),
`delete_task X` removes exactly that task, preserving the relative order and
every field of the others (the remaining list is the order-preserving
sublist of the original missing exactly `tX`), leaves `next_id` unchanged,
and after saving and reloading the store `X` is absent and everything else
is field-for-field unchanged. -/
theorem c3_delete_frame (s : Store) (now now2 : String) (X : Nat) (tX : Task)
    (hmem : tX ∈ s.tasks) (hid : tX.id = X)
    (huniq : s.tasks.Pairwise (fun a b => a.id ≠ b.id)) :
    ∃ s', delete_task s now X = .ok s' ∧
      s'.tasks = s.tasks.filter (fun t => t.id ≠ X) ∧
      s'.tasks.Sublist s.tasks ∧
      s.tasks.Perm (tX :: s'.tasks) ∧
      (∀ t, t ∈ s'.tasks ↔ t ∈ s.tasks ∧ t.id ≠ X) ∧
      s'.next_id = s.next_id ∧
      (load_tasks (.parsed (save_store s')) now2).1.tasks = s'.tasks ∧
      (load_tasks (.parsed (save_store s')) now2).1.next_id = s.next_id := by
  obtain ⟨l1, l2, hs⟩ := List.append_of_mem hmem
  have hsplit := List.pairwise_append.mp (hs ▸ huniq)
  have hl1 : ∀ u ∈ l1, u.id ≠ X := by
    intro u hu heq
    exact hsplit.2.2 u hu tX (List.mem_cons_self tX l2) (by rw [heq, hid])
  have hl2 : ∀ u ∈ l2, u.id ≠ X := by
    intro u hu heq
    exact (List.pairwise_cons.mp hsplit.2.1).1 u hu (by rw [hid, heq])
  have hf : s.tasks.find? (fun u => u.id == X) = some tX := by
    rw [hs]
    exact find?_first l2 (fun u hu => by simp [hl1 u hu]) (by simp [hid])
  have hdel : delete_task s now X =
      .ok (stampSave { s with tasks := s.tasks.filter (fun t => t.id ≠ X) } now) := by
    unfold delete_task find_task_by_id
    rw [hf]
  have h1 : l1.filter (fun t => decide (t.id ≠ X)) = l1 :=
    List.filter_eq_self.mpr (fun u hu => by simp [hl1 u hu])
  have h2 : l2.filter (fun t => decide (t.id ≠ X)) = l2 :=
    List.filter_eq_self.mpr (fun u hu => by simp [hl2 u hu])
  have hfilter : s.tasks.filter (fun t => t.id ≠ X) = l1 ++ l2 := by
    rw [hs, List.filter_append, List.filter_cons, if_neg (by simp [hid]), h1, h2]
  refine ⟨_, hdel, rfl, ?_, ?_, ?_, rfl, ?_, ?_⟩
  · exact List.filter_sublist s.tasks
  · show s.tasks.Perm (tX :: s.tasks.filter (fun t => t.id ≠ X))
    rw [hfilter, hs]
    exact List.perm_middle
  · intro t
    simp [stampSave, List.mem_filter]
  · rw [load_save_roundtrip]
  · rw [load_save_roundtrip]
    rfl

/-- C3 witness: delete id 1 from a concrete two-task store. -/
theorem c3_witness :
    ∃ s', delete_task c2Store "n4" 1 = .ok s' ∧
      s'.tasks = c2Store.tasks.filter (fun t => t.id ≠ 1) ∧
      s'.tasks.Sublist c2Store.tasks ∧
      c2Store.tasks.Perm (exTaskDone1 :: s'.tasks) ∧
      (∀ t, t ∈ s'.tasks ↔ t ∈ c2Store.tasks ∧ t.id ≠ 1) ∧
      s'.next_id = c2Store.next_id ∧
      (load_tasks (.parsed (save_store s')) "n5").1.tasks = s'.tasks ∧
      (load_tasks (.parsed (save_store s')) "n5").1.next_id = c2Store.next_id :=
  c3_delete_frame c2Store "n4" "n5" 1 exTaskDone1 (by decide) rfl (by decide)

/-! ### Filter predicates (specification views of the four filters) -/

/-- The status predicate one `filter_tasks` stage applies (truthy guard
included). -/
def statusPass (st : Option String) (t : Task) : Bool :=
  match st with
  | none => true
  | some x => if x = "" then true else t.status == x

/-- The category predicate (`t.get("category", "general") ==
category.lower()`). -/
def categoryPass (cat : Option String) (t : Task) : Bool :=
  match cat with
  | none => true
  | some c => if c = "" then true else t.category == pyLower c

/-- The priority predicate. -/
def priorityPass (pr : Option String) (t : Task) : Bool :=
  match pr with
  | none => true
  | some p => if p = "" then true else t.priority == p

/-- The due-soon predicate on one task (defined where no `ValueError`
occurs): has a truthy due date on or before `today + 7`. -/
def duePass (today : Nat) (t : Task) : Bool :=
  match t.due_date with
  | none => false
  | some d =>
    if d = "" then false
    else
      match parseYMD d with
      | none => false
      | some ymd => decide (toDayNumber ymd ≤ today + 7)

/-- A task whose stored due date cannot make the due-soon comprehension
raise: absent, empty, or parsable. -/
def dueOkTask (t : Task) : Bool :=
  match t.due_date with
  | none => true
  | some d => d = "" || (parseYMD d).isSome

/-- Membership in the task list of a successful filter result. -/
def memOk (e : Except String (List Task)) (t : Task) : Bool :=
  match e with
  | .ok l => decide (t ∈ l)
  | .error _ => false

theorem dueSoonFilter_ok (today : Nat) : ∀ (l : List Task),
    (∀ t ∈ l, dueOkTask t = true) →
    dueSoonFilter today l = .ok (l.filter (duePass today))
  | [], _ => rfl
  | t :: ts, h => by
    have hts := dueSoonFilter_ok today ts (fun u hu => h u (List.mem_cons_of_mem t hu))
    have hd := h t (List.mem_cons_self t ts)
    unfold dueSoonFilter
    rw [List.filter_cons]
    cases hdd : t.due_date with
    | none =>
      dsimp only
      rw [hts]
      simp [duePass, hdd]
    | some d =>
      dsimp only
      by_cases he : d = ""
      · subst he
        rw [if_pos rfl, hts]
        simp [duePass, hdd]
      · rw [if_neg he]
        cases hp : parseYMD d with
        | none =>
          exfalso
          unfold dueOkTask at hd
          rw [hdd] at hd
          simp [he, hp] at hd
        | some ymd =>
          rw [hts]
          dsimp only
          by_cases hle : toDayNumber ymd ≤ today + 7
          · rw [if_pos hle]
            simp [duePass, hdd, he, hp, hle]
          · rw [if_neg hle]
            simp [duePass, hdd, he, hp, hle]

theorem filter_tasks_status (tasks : List Task) (st : Option String)
    (today : Nat) :
    filter_tasks tasks st none none false today =
      .ok (tasks.filter (statusPass st)) := by
  unfold filter_tasks
  cases st with
  | none =>
    simp only []
    exact congrArg Except.ok (List.filter_eq_self.mpr (fun t _ => rfl)).symm
  | some x =>
    by_cases hx : x = ""
    · subst hx
      simp only [ne_eq, not_true_eq_false, reduceIte]
      exact congrArg Except.ok (List.filter_eq_self.mpr (fun t _ => rfl)).symm
    · simp only [ne_eq, hx, not_false_eq_true, reduceIte]
      exact congrArg Except.ok (List.filter_congr (fun t _ => by simp [statusPass, hx]))

theorem filter_tasks_category (tasks : List Task) (cat : Option String)
    (today : Nat) :
    filter_tasks tasks none cat none false today =
      .ok (tasks.filter (categoryPass cat)) := by
  unfold filter_tasks
  cases cat with
  | none =>
    simp only []
    exact congrArg Except.ok (List.filter_eq_self.mpr (fun t _ => rfl)).symm
  | some c =>
    by_cases hc : c = ""
    · subst hc
      simp only [ne_eq, not_true_eq_false, reduceIte]
      exact congrArg Except.ok (List.filter_eq_self.mpr (fun t _ => rfl)).symm
    · simp only [ne_eq, hc, not_false_eq_true, reduceIte]
      exact congrArg Except.ok (List.filter_congr (fun t _ => by simp [categoryPass, hc]))

theorem filter_tasks_priority (tasks : List Task) (pr : Option String)
    (today : Nat) :
    filter_tasks tasks none none pr false today =
      .ok (tasks.filter (priorityPass pr)) := by
  unfold filter_tasks
  cases pr with
  | none =>
    simp only []
    exact congrArg Except.ok (List.filter_eq_self.mpr (fun t _ => rfl)).symm
  | some p =>
    by_cases hp : p = ""
    · subst hp
      simp only [ne_eq, not_true_eq_false, reduceIte]
      exact congrArg Except.ok (List.filter_eq_self.mpr (fun t _ => rfl)).symm
    · simp only [ne_eq, hp, not_false_eq_true, reduceIte]
      exact congrArg Except.ok (List.filter_congr (fun t _ => by simp [priorityPass, hp]))

theorem filter_tasks_due (tasks : List Task) (ds : Bool) (today : Nat)
    (H : ∀ t ∈ tasks, dueOkTask t = true) :
    filter_tasks tasks none none none ds today =
      .ok (tasks.filter (fun t => !ds || duePass today t)) := by
  unfold filter_tasks
  dsimp only
  cases ds with
  | false =>
    simp only [Bool.not_false, Bool.true_or]
    exact congrArg Except.ok (List.filter_eq_self.mpr (fun t _ => rfl)).symm
  | true =>
    rw [dueSoonFilter_ok today tasks H]
    simp

theorem filter_tasks_combined (tasks : List Task) (st cat pr : Option String)
    (ds : Bool) (today : Nat) (H : ∀ t ∈ tasks, dueOkTask t = true) :
    filter_tasks tasks st cat pr ds today =
      .ok (tasks.filter (fun t => statusPass st t && categoryPass cat t &&
        priorityPass pr t && (!ds || duePass today t))) := by
  unfold filter_tasks
  dsimp only
  have hst : (match st with
      | some x => if x ≠ "" then tasks.filter (fun t => t.status == x) else tasks
      | none => tasks) = tasks.filter (statusPass st) := by
    cases st with
    | none => exact (List.filter_eq_self.mpr (fun t _ => rfl)).symm
    | some x =>
      by_cases hx : x = ""
      · subst hx
        simp only [ne_eq, not_true_eq_false, reduceIte]
        exact (List.filter_eq_self.mpr (fun t _ => rfl)).symm
      · simp only [ne_eq, hx, not_false_eq_true, reduceIte]
        exact List.filter_congr (fun t _ => by simp [statusPass, hx])
  rw [hst]
  have hcat : ∀ l : List Task, (match cat with
      | some c => if c ≠ "" then l.filter (fun t => t.category == pyLower c) else l
      | none => l) = l.filter (categoryPass cat) := by
    intro l
    cases cat with
    | none => exact (List.filter_eq_self.mpr (fun t _ => rfl)).symm
    | some c =>
      by_cases hc : c = ""
      · subst hc
        simp only [ne_eq, not_true_eq_false, reduceIte]
        exact (List.filter_eq_self.mpr (fun t _ => rfl)).symm
      · simp only [ne_eq, hc, not_false_eq_true, reduceIte]
        exact List.filter_congr (fun t _ => by simp [categoryPass, hc])
  rw [hcat]
  have hpr : ∀ l : List Task, (match pr with
      | some p => if p ≠ "" then l.filter (fun t => t.priority == p) else l
      | none => l) = l.filter (priorityPass pr) := by
    intro l
    cases pr with
    | none => exact (List.filter_eq_self.mpr (fun t _ => rfl)).symm
    | some p =>
      by_cases hp : p = ""
      · subst hp
        simp only [ne_eq, not_true_eq_false, reduceIte]
        exact (List.filter_eq_self.mpr (fun t _ => rfl)).symm
      · simp only [ne_eq, hp, not_false_eq_true, reduceIte]
        exact List.filter_congr (fun t _ => by simp [priorityPass, hp])
  rw [hpr, List.filter_filter, List.filter_filter]
  cases ds with
  | false =>
    refine congrArg Except.ok (List.filter_congr fun t ht => ?_)
    cases statusPass st t <;> cases categoryPass cat t <;>
      cases priorityPass pr t <;> rfl
  | true =>
    rw [dueSoonFilter_ok today _ (fun t ht =>
      H t (List.mem_of_mem_filter ht)), List.filter_filter]
    refine congrArg Except.ok (List.filter_congr fun t ht => ?_)
    cases statusPass st t <;> cases categoryPass cat t <;>
      cases priorityPass pr t <;> cases duePass today t <;> rfl

/-- C7: for every task list and every combination of supplied filter
predicates, filtering with several predicates at once returns exactly the
order-preserving intersection of the single-filter results: the combined
result is the sublist of `tasks` keeping exactly the tasks belonging to all
four single-filter results.  (The hypothesis rules out stored due dates on
which the Python due-soon comprehension would raise `ValueError`.) -/
theorem c7_filter_intersection (tasks : List Task) (st cat pr : Option String)
    (ds : Bool) (today : Nat) (H : ∀ t ∈ tasks, dueOkTask t = true) :
    filter_tasks tasks st cat pr ds today =
      .ok (tasks.filter (fun t =>
        memOk (filter_tasks tasks st none none false today) t &&
        memOk (filter_tasks tasks none cat none false today) t &&
        memOk (filter_tasks tasks none none pr false today) t &&
        memOk (filter_tasks tasks none none none ds today) t)) := by
  rw [filter_tasks_combined tasks st cat pr ds today H]
  refine congrArg Except.ok (List.filter_congr fun t ht => ?_)
  rw [filter_tasks_status, filter_tasks_category, filter_tasks_priority,
    filter_tasks_due tasks ds today H]
  simp [memOk, List.mem_filter, ht]

/-- C7 witness: the claim's own instance, `filter(category="work",
priority="high")` on a concrete list, equals the intersection of the two
single-filter results. -/
theorem c7_witness :
    (∀ t ∈ [exTaskLower, exTaskTodo2], dueOkTask t = true) ∧
    filter_tasks [exTaskLower, exTaskTodo2] none (some "work") (some "high")
        false 0 =
      .ok ([exTaskLower, exTaskTodo2].filter (fun t =>
        memOk (filter_tasks [exTaskLower, exTaskTodo2] none none none false 0) t &&
        memOk (filter_tasks [exTaskLower, exTaskTodo2] none (some "work") none false 0) t &&
        memOk (filter_tasks [exTaskLower, exTaskTodo2] none none (some "high") false 0) t &&
        memOk (filter_tasks [exTaskLower, exTaskTodo2] none none none false 0) t)) :=
  ⟨by decide, c7_filter_intersection [exTaskLower, exTaskTodo2] none
    (some "work") (some "high") false 0 (by decide)⟩

/-! ### Statistics lemmas -/

/-- `status_counts.get("done", 0)` recovers the done count. -/
theorem alistGet_status_done (tasks : List Task) :
    alistGet (valid_statuses.map
      (fun sname => (sname, tasks.countP (fun t => t.status == sname)))) "done" 0 =
    tasks.countP (fun t => t.status == "done") := by
  simp [valid_statuses, alistGet, List.find?]

theorem get_statistics_nonempty (tasks : List Task) (today : Nat)
    (week_ago : String) (h : tasks ≠ []) :
    ∃ st, get_statistics tasks today week_ago = .stats st ∧
      st.total = tasks.length ∧
      st.status_counts = valid_statuses.map
        (fun sname => (sname, tasks.countP (fun t => t.status == sname))) ∧
      st.completion_rate =
        (tasks.countP (fun t => t.status == "done") : ℚ) / (tasks.length : ℚ) * 100 := by
  have hne : tasks.isEmpty = false := by
    cases tasks with
    | nil => exact absurd rfl h
    | cons a l => rfl
  unfold get_statistics
  rw [if_neg (by rw [hne]; simp)]
  dsimp only
  refine ⟨_, rfl, rfl, rfl, ?_⟩
  rw [alistGet_status_done]

/-- C9: for every non-empty task collection, `get_statistics` returns
per-status counts for all three statuses (zero counts included, keys always
`todo`, `in-progress`, `done`) and a completion rate equal to done / total
× 100 (so 33.3 ± 0.1 for 3 tasks with exactly 1 done); the empty collection
yields the distinct `noTasks` result instead of a 0%-rate report. -/
theorem c9_statistics (tasks : List Task) (today : Nat) (week_ago : String)
    (h : tasks ≠ []) :
    (∃ st, get_statistics tasks today week_ago = .stats st ∧
      st.total = tasks.length ∧
      st.status_counts = valid_statuses.map
        (fun sname => (sname, tasks.countP (fun t => t.status == sname))) ∧
      st.status_counts.map Prod.fst = ["todo", "in-progress", "done"] ∧
      st.completion_rate =
        (tasks.countP (fun t => t.status == "done") : ℚ) / (tasks.length : ℚ) * 100) ∧
    get_statistics [] today week_ago = .noTasks ∧
    (∀ ts2 : List Task, ts2.length = 3 →
      ts2.countP (fun t => t.status == "done") = 1 →
      ∃ st2, get_statistics ts2 today week_ago = .stats st2 ∧
        |st2.completion_rate - 33.3| ≤ 0.1) := by
  refine ⟨?_, rfl, ?_⟩
  · obtain ⟨st, h1, h2, h3, h4⟩ := get_statistics_nonempty tasks today week_ago h
    refine ⟨st, h1, h2, h3, ?_, h4⟩
    rw [h3]
    simp [valid_statuses]
  · intro ts2 hlen hdone
    have hne2 : ts2 ≠ [] := by
      intro he
      rw [he] at hlen
      simp at hlen
    obtain ⟨st2, h1, _, _, h4⟩ := get_statistics_nonempty ts2 today week_ago hne2
    refine ⟨st2, h1, ?_⟩
    rw [h4, hdone, hlen]
    norm_num [abs_le]

/-- C9 witness: three tasks, one done. -/
theorem c9_witness :
    ([exTaskDone1, exTaskTodo2, exTaskLower] ≠ []) ∧
    (∃ st, get_statistics [exTaskDone1, exTaskTodo2, exTaskLower] 0 "w" = .stats st ∧
      st.total = [exTaskDone1, exTaskTodo2, exTaskLower].length ∧
      st.status_counts = valid_statuses.map
        (fun sname => (sname, [exTaskDone1, exTaskTodo2, exTaskLower].countP
          (fun t => t.status == sname))) ∧
      st.status_counts.map Prod.fst = ["todo", "in-progress", "done"] ∧
      st.completion_rate =
        ([exTaskDone1, exTaskTodo2, exTaskLower].countP (fun t => t.status == "done") : ℚ) /
          ([exTaskDone1, exTaskTodo2, exTaskLower].length : ℚ) * 100) :=
  ⟨by decide, (c9_statistics [exTaskDone1, exTaskTodo2, exTaskLower] 0 "w"
    (by decide)).1⟩

/-! ### Sequences of adds (C1) -/

/-- The task a successful `add_task` appends. -/
def addedTask (s : Store) (now d cat p : String) (pd : Option String) : Task :=
  { id := s.next_id, description := pyStrip d, status := default_status,
    category := pyLower cat, priority := p, due_date := pd,
    createdAt := now, updatedAt := now }

/-- The store a successful `add_task` produces. -/
def addedStore (s : Store) (now d cat p : String) (pd : Option String) : Store :=
  { tasks := s.tasks ++ [addedTask s now d cat p pd],
    next_id := s.next_id + 1,
    metadata := { s.metadata with last_modified := now } }

theorem add_task_ok_shape (s : Store) (now d cat p : String)
    (dd : Option String) (h : addOk ⟨now, d, cat, p, dd⟩ = true) :
    ∃ pd, add_task s now d cat p dd = .ok (addedStore s now d cat p pd) := by
  unfold addOk at h
  rw [Bool.and_eq_true, Bool.and_eq_true, Bool.and_eq_true] at h
  obtain ⟨⟨⟨h1, h2⟩, h3⟩, h4⟩ := h
  have h1' : pyStrip d ≠ "" := of_decide_eq_true h1
  have h2' : (pyStrip d).length ≤ max_description_length := of_decide_eq_true h2
  unfold add_task
  rw [if_neg h1', if_neg (by omega), if_neg (by rw [h3]; simp)]
  cases dd with
  | none => exact ⟨none, rfl⟩
  | some d0 =>
    dsimp only
    by_cases he : d0 = ""
    · subst he
      rw [if_neg (by simp)]
      exact ⟨none, rfl⟩
    · rw [if_pos he]
      cases hp : parseDueDate d0 with
      | none => simp [he, hp] at h4
      | some pd0 => exact ⟨some pd0, rfl⟩

theorem runAdds_ids (calls : List AddCall) : ∀ (s : Store),
    (∀ c ∈ calls, addOk c = true) →
    (runAdds s calls).2 = List.range' s.next_id calls.length 1 ∧
    (runAdds s calls).1.next_id = s.next_id + calls.length := by
  induction calls with
  | nil => exact fun s _ => ⟨rfl, rfl⟩
  | cons c cs ih =>
    intro s h
    obtain ⟨pd, hok⟩ := add_task_ok_shape s c.now c.description c.category
      c.priority c.due_date (h c (List.mem_cons_self c cs))
    have hrec := ih (addedStore s c.now c.description c.category c.priority pd)
      (fun u hu => h u (List.mem_cons_of_mem c hu))
    have hstep : (addedStore s c.now c.description c.category c.priority pd).next_id
        = s.next_id + 1 := rfl
    unfold runAdds
    rw [hok]
    dsimp only
    refine ⟨?_, ?_⟩
    · rw [hrec.1, hstep, List.length_cons, List.range'_succ]
    · rw [hrec.2, hstep, List.length_cons]
      omega

/-- C1: every successful add assigns `id = next_id`, appends at the end,
stamps `createdAt` and `updatedAt` with the same timestamp and increments
`next_id` by exactly 1; hence over any sequence of successful adds the
issued ids are consecutive (`range'` from the starting `next_id`, i.e.
strictly increasing by 1), every issued id is below the final `next_id`,
and the final `next_id` is exactly (max issued id) + 1. -/
theorem c1_add_id_assignment (s : Store) (now d cat p : String)
    (dd : Option String) (calls : List AddCall)
    (hok : addOk ⟨now, d, cat, p, dd⟩ = true)
    (hall : ∀ c ∈ calls, addOk c = true) :
    (∃ pd, add_task s now d cat p dd = .ok (addedStore s now d cat p pd)) ∧
    (runAdds s calls).2 = List.range' s.next_id calls.length 1 ∧
    (runAdds s calls).1.next_id = s.next_id + calls.length ∧
    (∀ i ∈ (runAdds s calls).2, i < (runAdds s calls).1.next_id) ∧
    (calls ≠ [] → ((runAdds s calls).1.next_id - 1) ∈ (runAdds s calls).2) := by
  obtain ⟨hids, hnext⟩ := runAdds_ids calls s hall
  refine ⟨add_task_ok_shape s now d cat p dd hok, hids, hnext, ?_, ?_⟩
  · intro i hi
    rw [hids] at hi
    rw [hnext]
    have := List.mem_range'_1.mp hi
    omega
  · intro hne
    have hpos : 0 < calls.length := List.length_pos.mpr hne
    rw [hids, hnext, List.mem_range'_1]
    omega

def c1CallA : AddCall :=
  { now := "a1", description := "First", category := "general",
    priority := "medium", due_date := none }

def c1CallB : AddCall :=
  { now := "a2", description := "Second", category := "Work",
    priority := "high", due_date := some "2024-06-01" }

/-- C1 witness: two successful adds starting from the empty store issue ids
1 and 2. -/
theorem c1_witness :
    addOk ⟨"a0", "Zero", "general", "medium", none⟩ = true ∧
    (∀ c ∈ [c1CallA, c1CallB], addOk c = true) ∧
    (runAdds exEmptyStore [c1CallA, c1CallB]).2 =
      List.range' exEmptyStore.next_id 2 1 ∧
    (runAdds exEmptyStore [c1CallA, c1CallB]).1.next_id =
      exEmptyStore.next_id + 2 ∧
    (runAdds exEmptyStore [c1CallA, c1CallB]).2 = [1, 2] := by
  have h := c1_add_id_assignment exEmptyStore "a0" "Zero" "general" "medium"
    none [c1CallA, c1CallB] (by decide) (by decide)
  exact ⟨by decide, by decide, h.2.1, h.2.2.1, by decide⟩

/-! ### Sorting lemmas (C6) -/

theorem sort_key_le_priority :
    sort_key_le "priority" = fun a b =>
      decide (priorityIndex a.priority ≤ priorityIndex b.priority) := rfl

theorem sort_key_le_due :
    sort_key_le "due_date" = fun a b => strLe (dueKey a) (dueKey b) := rfl

theorem prio_trans : ∀ (a b c : Task), sort_key_le "priority" a b →
    sort_key_le "priority" b c → sort_key_le "priority" a c := by
  intro a b c hab hbc
  rw [sort_key_le_priority] at *
  simp only [decide_eq_true_eq] at *
  omega

theorem prio_total : ∀ (a b : Task),
    sort_key_le "priority" a b || sort_key_le "priority" b a := by
  intro a b
  rw [sort_key_le_priority]
  simp only [Bool.or_eq_true, decide_eq_true_eq]
  omega

theorem due_trans : ∀ (a b c : Task), sort_key_le "due_date" a b →
    sort_key_le "due_date" b c → sort_key_le "due_date" a c := by
  intro a b c hab hbc
  rw [sort_key_le_due] at *
  exact strLe_trans hab hbc

theorem due_total : ∀ (a b : Task),
    sort_key_le "due_date" a b || sort_key_le "due_date" b a := by
  intro a b
  rw [sort_key_le_due]
  rcases strLe_total (dueKey a) (dueKey b) with h | h <;> simp [h]

/-- A stored due date on which the sentinel really is strictly larger:
non-empty and below `"9999-12-31"` in string order. -/
def dueProper (t : Task) : Bool :=
  match t.due_date with
  | none => true
  | some dd => dd ≠ "" && lexLt dd.data ("9999-12-31" : String).data

theorem dueKey_none_after {x y : Task}
    (hxy : strLe (dueKey x) (dueKey y) = true)
    (hx : x.due_date = none) (hy : dueProper y = true) : y.due_date = none := by
  cases hyd : y.due_date with
  | none => rfl
  | some dy =>
    exfalso
    unfold dueProper at hy
    rw [hyd] at hy
    rw [Bool.and_eq_true] at hy
    obtain ⟨hne, hlt⟩ := hy
    have hne' : dy ≠ "" := by simpa using hne
    have hkx : dueKey x = "9999-12-31" := by simp [dueKey, hx]
    have hky : dueKey y = dy := by simp [dueKey, hyd, hne']
    rw [hkx, hky] at hxy
    have hf := not_lexLt_of_strLe hxy
    rw [hlt] at hf
    exact Bool.false_ne_true hf.symm

/-- C6: sorting by `priority` orders tasks by severity rank (low=0 <
medium=1 < high=2, not lexicographically) and sorting by `due_date` orders
by the date string with absent due dates mapped to the far-future sentinel
`"9999-12-31"`; `reverse` flips the entire key ordering, so reversed
priority order is high before low, and (for stored due dates below the
sentinel) ascending order puts no-due-date tasks last while reversed order
puts them first.  Both sorts permute the input. -/
theorem c6_sort_priority_due (ts : List Task) :
    (sort_tasks ts "priority" false).Perm ts ∧
    (sort_tasks ts "priority" true).Perm ts ∧
    (sort_tasks ts "due_date" false).Perm ts ∧
    (sort_tasks ts "due_date" true).Perm ts ∧
    (sort_tasks ts "priority" false).Pairwise
      (fun a b => priorityIndex a.priority ≤ priorityIndex b.priority) ∧
    (sort_tasks ts "priority" true).Pairwise
      (fun a b => priorityIndex b.priority ≤ priorityIndex a.priority) ∧
    priorityIndex "low" = 0 ∧ priorityIndex "medium" = 1 ∧
    priorityIndex "high" = 2 ∧
    (sort_tasks ts "due_date" false).Pairwise
      (fun a b => strLe (dueKey a) (dueKey b) = true) ∧
    (sort_tasks ts "due_date" true).Pairwise
      (fun a b => strLe (dueKey b) (dueKey a) = true) ∧
    (∀ t : Task, t.due_date = none → dueKey t = "9999-12-31") ∧
    ((∀ t ∈ ts, dueProper t = true) →
      (sort_tasks ts "due_date" false).Pairwise
        (fun a b => a.due_date = none → b.due_date = none) ∧
      (sort_tasks ts "due_date" true).Pairwise
        (fun a b => b.due_date = none → a.due_date = none)) := by
  have pasc : (sort_tasks ts "priority" false).Pairwise
      (fun a b => sort_key_le "priority" a b = true) :=
    List.sorted_mergeSort prio_trans prio_total ts
  have pdesc : (sort_tasks ts "priority" true).Pairwise
      (fun a b => sort_key_le "priority" b a = true) :=
    List.pairwise_reverse.mpr (List.sorted_mergeSort prio_trans prio_total ts.reverse)
  have dasc : (sort_tasks ts "due_date" false).Pairwise
      (fun a b => sort_key_le "due_date" a b = true) :=
    List.sorted_mergeSort due_trans due_total ts
  have ddesc : (sort_tasks ts "due_date" true).Pairwise
      (fun a b => sort_key_le "due_date" b a = true) :=
    List.pairwise_reverse.mpr (List.sorted_mergeSort due_trans due_total ts.reverse)
  have permAsc : ∀ k : String, (List.mergeSort ts (sort_key_le k)).Perm ts :=
    fun k => List.mergeSort_perm ts (sort_key_le k)
  have permDesc : ∀ k : String,
      ((List.mergeSort ts.reverse (sort_key_le k)).reverse).Perm ts := by
    intro k
    exact ((List.mergeSort ts.reverse (sort_key_le k)).reverse_perm).trans
      ((List.mergeSort_perm ts.reverse (sort_key_le k)).trans ts.reverse_perm)
  refine ⟨permAsc "priority", permDesc "priority", permAsc "due_date",
    permDesc "due_date", ?_, ?_, rfl, rfl, rfl, ?_, ?_, ?_, ?_⟩
  · exact pasc.imp (fun h => by
      rw [sort_key_le_priority] at h
      exact of_decide_eq_true h)
  · exact pdesc.imp (fun h => by
      rw [sort_key_le_priority] at h
      exact of_decide_eq_true h)
  · exact dasc.imp (fun h => by rw [sort_key_le_due] at h; exact h)
  · exact ddesc.imp (fun h => by rw [sort_key_le_due] at h; exact h)
  · intro t ht
    simp [dueKey, ht]
  · intro H
    constructor
    · refine List.Pairwise.imp_of_mem ?_ dasc
      intro a b _ hb hab hnone
      rw [sort_key_le_due] at hab
      exact dueKey_none_after hab hnone
        (H b ((permAsc "due_date").mem_iff.mp hb))
    · refine List.Pairwise.imp_of_mem ?_ ddesc
      intro a b ha _ hab hnone
      rw [sort_key_le_due] at hab
      exact dueKey_none_after hab hnone
        (H a ((permDesc "due_date").mem_iff.mp ha))

def c6TaskNoDue : Task :=
  { id := 7, description := "No due", status := "todo", category := "general",
    priority := "low", due_date := none, createdAt := "t0", updatedAt := "t0" }

/-- C6 witness: with proper stored due dates, no-due-date tasks come last
ascending and first descending. -/
theorem c6_witness :
    (∀ t ∈ [c6TaskNoDue, exTaskWork], dueProper t = true) ∧
    (sort_tasks [c6TaskNoDue, exTaskWork] "due_date" false).Pairwise
      (fun a b => a.due_date = none → b.due_date = none) ∧
    (sort_tasks [c6TaskNoDue, exTaskWork] "due_date" true).Pairwise
      (fun a b => b.due_date = none → a.due_date = none) :=
  ⟨by decide, ((c6_sort_priority_due [c6TaskNoDue, exTaskWork]).2.2.2.2.2.2.2.2.2.2.2.2)
    (by decide)⟩

end TaskCli
